import Mathlib

/-!
Verification of the mesh-block neighbor-topology resolver of AthenaK
(`src/mesh/meshblock.cpp`): boundary-condition classification in the
`MeshBlock` constructor and the neighbor-slot protocol of
`MeshBlock::SetNeighbors`.  The octree search (`MeshBlockTree::FindNeighbor`
and `MeshBlockTree::GetLeaf`, `mesh_tree.cpp`) is not part of the sources;
where a claim depends on it, it is modelled from the specification (§4.1)
and marked as such.
-/

/-- `LogicalLocation` (athena.hpp): refinement level plus three integer
octree coordinates of a block. -/
structure LogicalLocation where
  level : Int
  lx1 : Int
  lx2 : Int
  lx3 : Int
  deriving DecidableEq

/-- One neighbor record, `mbnghbr(m,n,0..3)` in `SetNeighbors`:
global id, logical level, MPI rank and reciprocal target-buffer index. -/
structure NbrEntry where
  gid : Int
  lev : Int
  rank : Int
  destn : Int
  deriving DecidableEq

/-- The "no neighbor" record: all four fields hold the sentinel -1. -/
def sentinelEntry : NbrEntry := ⟨-1, -1, -1, -1⟩

/-- The six face directions of `BoundaryFace` (athena.hpp, not under src/;
ordering inner_x1, outer_x1, inner_x2, outer_x2, inner_x3, outer_x3 as used
by `mbbcs(m,0..5)`). -/
inductive BoundaryFace where
  | inner_x1 : BoundaryFace
  | outer_x1 : BoundaryFace
  | inner_x2 : BoundaryFace
  | outer_x2 : BoundaryFace
  | inner_x3 : BoundaryFace
  | outer_x3 : BoundaryFace
  deriving DecidableEq

/-- Modelled from the spec: `BoundaryFlag` (athena.hpp is not under src/).
Per the data model (§3) a face is either an inter-block boundary (`block`)
or a physical domain boundary of some configured kind; the kinds
(reflect, outflow, periodic, user, ...) are abstracted as a numeric tag. -/
inductive BoundaryFlag where
  | block : BoundaryFlag
  | physical : Nat → BoundaryFlag
  deriving DecidableEq

/-- The fields of the `Mesh` class read by `meshblock.cpp`:
dimensionality flags, root-grid shape, per-face boundary conditions and
the global list of logical locations indexed by gid. -/
structure Mesh where
  one_d : Bool
  two_d : Bool
  three_d : Bool
  multi_d : Bool
  nx2 : Int
  nx3 : Int
  root_level : Int
  nmb_rootx1 : Int
  nmb_rootx2 : Int
  nmb_rootx3 : Int
  mesh_bcs : BoundaryFace → BoundaryFlag
  lloclist : Int → LogicalLocation

/-- A `MeshBlockTree` node: gid, logical location, and `pleaf_`, which is
null for a leaf and otherwise the list of children indexed by octant. -/
inductive MBTree where
  | node (g : Int) (l : LogicalLocation) (p : Option (List MBTree)) : MBTree

instance : Inhabited MBTree := ⟨.node (-1) ⟨0, 0, 0, 0⟩ none⟩

def MBTree.gid_ : MBTree → Int
  | .node g _ _ => g

def MBTree.loc_ : MBTree → LogicalLocation
  | .node _ l _ => l

def MBTree.pleaf_ : MBTree → Option (List MBTree)
  | .node _ _ p => p

/-- Modelled from the spec: `MeshBlockTree::GetLeaf` (mesh_tree.cpp is not
under src/): select the child in octant `(i,j,k)`. -/
def MBTree.GetLeaf (t : MBTree) (i j k : Int) : MBTree :=
  (t.pleaf_.getD []).getD (i + 2 * j + 4 * k).toNat default

/-- The shape of a tree-search callback: `ptree->FindNeighbor(loc, o1, o2, o3)`. -/
abbrev FindFn := LogicalLocation → Int → Int → Int → Option MBTree

/-- Modelled from the spec (§4.1): descend the tree from the root matching
bits of the computed location until either a leaf is reached before the
bits are exhausted (coarser neighbor) or the bits are exhausted (the node
reached is a same-level leaf, or an internal node when the true neighbor
is finer). -/
def descend : Nat → MBTree → Int → Int → Int → MBTree
  | 0, t, _, _, _ => t
  | f + 1, t, a1, a2, a3 =>
    match t.pleaf_ with
    | none => t
    | some _ =>
      let b1 := a1 / (2 : Int) ^ f % 2
      let b2 := a2 / (2 : Int) ^ f % 2
      let b3 := a3 / (2 : Int) ^ f % 2
      descend f (t.GetLeaf b1 b2 b3) a1 a2 a3

/-- Modelled from the spec (§4.1): `MeshBlockTree::FindNeighbor`
(mesh_tree.cpp is not under src/).  Add the direction offset to the
block's coordinates; a coordinate leaving `[0, nmbRoot·2^(level-root))`
on a non-periodic axis yields null (physical boundary), a periodic axis
wraps modulo the extent; otherwise descend the tree to the computed
location. -/
def findNeighborM (root : MBTree) (rl nr1 nr2 nr3 : Int) (p1 p2 p3 : Bool)
    (loc : LogicalLocation) (o1 o2 o3 : Int) : Option MBTree :=
  if (loc.lx1 + o1 < 0 ∨ nr1 * 2 ^ (loc.level - rl).toNat ≤ loc.lx1 + o1) ∧ p1 = false then
    none
  else if (loc.lx2 + o2 < 0 ∨ nr2 * 2 ^ (loc.level - rl).toNat ≤ loc.lx2 + o2) ∧ p2 = false then
    none
  else if (loc.lx3 + o3 < 0 ∨ nr3 * 2 ^ (loc.level - rl).toNat ≤ loc.lx3 + o3) ∧ p3 = false then
    none
  else
    some (descend loc.level.toNat root
      (if p1 then (loc.lx1 + o1) % (nr1 * 2 ^ (loc.level - rl).toNat) else loc.lx1 + o1)
      (if p2 then (loc.lx2 + o2) % (nr2 * 2 ^ (loc.level - rl).toNat) else loc.lx2 + o2)
      (if p3 then (loc.lx3 + o3) % (nr3 * 2 ^ (loc.level - rl).toNat) else loc.lx3 + o3))

/-- Boundary-condition classification of the `MeshBlock` constructor
(meshblock.cpp lines 35-91): the six entries `mbbcs(m,0..5)` for a block
at logical location `loc`.  The C++ left shift `nmb_rootx << (lev -
root_level)` is written as multiplication by a power of two. -/
def mbbcsRow (pm : Mesh) (loc : LogicalLocation) : List BoundaryFlag :=
  [ if loc.lx1 = 0 then pm.mesh_bcs .inner_x1 else .block,
    if loc.lx1 = pm.nmb_rootx1 * 2 ^ (loc.level - pm.root_level).toNat - 1 then
      pm.mesh_bcs .outer_x1 else .block,
    if pm.nx2 = 1 then pm.mesh_bcs .inner_x2
    else if loc.lx2 = 0 then pm.mesh_bcs .inner_x2 else .block,
    if pm.nx2 = 1 then pm.mesh_bcs .outer_x2
    else if loc.lx2 = pm.nmb_rootx2 * 2 ^ (loc.level - pm.root_level).toNat - 1 then
      pm.mesh_bcs .outer_x2 else .block,
    if pm.nx3 = 1 then pm.mesh_bcs .inner_x3
    else if loc.lx3 = 0 then pm.mesh_bcs .inner_x3 else .block,
    if pm.nx3 = 1 then pm.mesh_bcs .outer_x3
    else if loc.lx3 = pm.nmb_rootx3 * 2 ^ (loc.level - pm.root_level).toNat - 1 then
      pm.mesh_bcs .outer_x3 else .block ]

/-- A neighbor query of `SetNeighbors`: direction offsets together with the
slot index written on this side and the reciprocal `destn` index. -/
structure Query where
  o1 : Int
  o2 : Int
  o3 : Int
  slot : Int
  destn : Int
  deriving DecidableEq

/-- x1-face queries (meshblock.cpp lines 146-163): `n ∈ {-1,1}`,
slot `(1+n)/2`, destn `(1-n)/2`. -/
def x1Qs : List Query :=
  ([-1, 1] : List Int).map fun n => ⟨n, 0, 0, (1 + n) / 2, (1 - n) / 2⟩

/-- x2-face queries (lines 167-175): `m ∈ {-1,1}`, slot `2+(1+m)/2`,
destn `2+(1-m)/2`. -/
def x2faceQs : List Query :=
  ([-1, 1] : List Int).map fun m => ⟨0, m, 0, 2 + (1 + m) / 2, 2 + (1 - m) / 2⟩

/-- x1x2-edge queries (lines 176-186): slot `4+(1+m)+(1+n)/2`,
destn `4+(1-m)+(1-n)/2`. -/
def x1x2Qs : List Query :=
  ([-1, 1] : List Int).flatMap fun m =>
    ([-1, 1] : List Int).map fun n => ⟨n, m, 0, 4 + (1 + m) + (1 + n) / 2, 4 + (1 - m) + (1 - n) / 2⟩

/-- x3-face queries (lines 191-199): slot `8+(1+l)/2`, destn `8+(1-l)/2`. -/
def x3faceQs : List Query :=
  ([-1, 1] : List Int).map fun l => ⟨0, 0, l, 8 + (1 + l) / 2, 8 + (1 - l) / 2⟩

/-- x3x1-edge queries (lines 200-210): slot `10+(1+l)+(1+n)/2`,
destn `10+(1-l)+(1-n)/2`. -/
def x3x1Qs : List Query :=
  ([-1, 1] : List Int).flatMap fun l =>
    ([-1, 1] : List Int).map fun n => ⟨n, 0, l, 10 + (1 + l) + (1 + n) / 2, 10 + (1 - l) + (1 - n) / 2⟩

/-- x2x3-edge queries (lines 211-221): slot `14+(1+l)+(1+m)/2`,
destn `14+(1-l)+(1-m)/2`. -/
def x2x3Qs : List Query :=
  ([-1, 1] : List Int).flatMap fun l =>
    ([-1, 1] : List Int).map fun m => ⟨0, m, l, 14 + (1 + l) + (1 + m) / 2, 14 + (1 - l) + (1 - m) / 2⟩

/-- Corner queries (lines 222-234): slot `18+2(1+l)+(1+m)+(1+n)/2`,
destn `18+2(1-l)+(1-m)+(1-n)/2`. -/
def cornerQs : List Query :=
  ([-1, 1] : List Int).flatMap fun l =>
    ([-1, 1] : List Int).flatMap fun m =>
      ([-1, 1] : List Int).map fun n =>
        ⟨n, m, l, 18 + 2 * (1 + l) + (1 + m) + (1 + n) / 2, 18 + 2 * (1 - l) + (1 - m) + (1 - n) / 2⟩

/-- All queries issued by `SetNeighbors` for one block, in program order:
x1 faces always; x2 faces and x1x2 edges only when `multi_d`; x3 faces,
x3x1 and x2x3 edges and corners only when `three_d`. -/
def effQueries (multi_d three_d : Bool) : List Query :=
  x1Qs ++ (if multi_d then x2faceQs ++ x1x2Qs else [])
       ++ (if three_d then x3faceQs ++ x3x1Qs ++ x2x3Qs ++ cornerQs else [])

/-- The closed-form slot-index formula of `SetNeighbors` as a function of
the direction tuple, collecting the index expressions of the seven loop
nests (meshblock.cpp lines 146-234). -/
def slotOf (n m l : Int) : Int :=
  if l = 0 then
    if m = 0 then (1 + n) / 2
    else if n = 0 then 2 + (1 + m) / 2
    else 4 + (1 + m) + (1 + n) / 2
  else
    if m = 0 then
      if n = 0 then 8 + (1 + l) / 2
      else 10 + (1 + l) + (1 + n) / 2
    else if n = 0 then 14 + (1 + l) + (1 + m) / 2
    else 18 + 2 * (1 + l) + (1 + m) + (1 + n) / 2

/-- The closed-form `destn` formula of `SetNeighbors` as a function of the
direction tuple, collecting the `destn` expressions of the seven loop
nests (meshblock.cpp lines 155, 173, 183, 197, 207, 218, 230). -/
def destnOf (n m l : Int) : Int :=
  if l = 0 then
    if m = 0 then (1 - n) / 2
    else if n = 0 then 2 + (1 - m) / 2
    else 4 + (1 - m) + (1 - n) / 2
  else
    if m = 0 then
      if n = 0 then 8 + (1 - l) / 2
      else 10 + (1 - l) + (1 - n) / 2
    else if n = 0 then 14 + (1 - l) + (1 - m) / 2
    else 18 + 2 * (1 - l) + (1 - m) + (1 - n) / 2

/-- One non-x1-face query step of `SetNeighbors`: search, and on success
overwrite the slot with gid, level, rank and `destn` of the found node. -/
def procQ (ft : FindFn) (rk : Int → Int) (loc : LogicalLocation)
    (row : List NbrEntry) (q : Query) : List NbrEntry :=
  match ft loc q.o1 q.o2 q.o3 with
  | none => row
  | some nt =>
    row.set q.slot.toNat ⟨nt.gid_, nt.loc_.level, rk nt.gid_, q.destn⟩

/-- One x1-face query step of `SetNeighbors` (lines 146-163): when the
found node has children (`pleaf_` non-null, neighbor at finer level) the
leaf on the facing side is selected with `GetLeaf(fface,0,0)`,
`fface = 1 - (n+1)/2`; otherwise the node itself is recorded. -/
def procX1 (ft : FindFn) (rk : Int → Int) (loc : LogicalLocation)
    (row : List NbrEntry) (n : Int) : List NbrEntry :=
  match ft loc n 0 0 with
  | none => row
  | some nt =>
    match nt.pleaf_ with
    | some _ =>
      let fface : Int := 1 - (n + 1) / 2
      let nf := nt.GetLeaf fface 0 0
      row.set ((1 + n) / 2).toNat ⟨nf.gid_, nf.loc_.level, rk nf.gid_, (1 - n) / 2⟩
    | none =>
      row.set ((1 + n) / 2).toNat ⟨nt.gid_, nt.loc_.level, rk nt.gid_, (1 - n) / 2⟩

/-- The neighbor row of one block produced by `SetNeighbors`
(lines 132-236): every slot starts at the sentinel, then the seven query
loops run in program order, the x2/x1x2 group under `multi_d` and the
x3/x3x1/x2x3/corner group under `three_d`. -/
def rowFor (m : Mesh) (ft : FindFn) (rk : Int → Int)
    (loc : LogicalLocation) (nn : Nat) : List NbrEntry :=
  let r0 := List.replicate nn sentinelEntry
  let r1 := procX1 ft rk loc r0 (-1)
  let r2 := procX1 ft rk loc r1 1
  let r3 := if m.multi_d then (x2faceQs ++ x1x2Qs).foldl (procQ ft rk loc) r2 else r2
  if m.three_d then (x3faceQs ++ x3x1Qs ++ x2x3Qs ++ cornerQs).foldl (procQ ft rk loc) r3 else r3

/-- The neighbor-count computation of `SetNeighbors` (lines 124-126):
three successive conditional assignments to `nnghbr`, starting from its
previous (unspecified) value. -/
def nnghbrOf (prev : Int) (one_d two_d three_d : Bool) : Int :=
  let v1 := if one_d then 2 else prev
  let v2 := if two_d then 8 else v1
  if three_d then 26 else v2

/-- The `nghbr` table right after `Kokkos::realloc` and the
initialization loop (lines 129-139): `nmb` rows of `nn` sentinel
entries. -/
def initTable (nmb nn : Nat) : List (List NbrEntry) :=
  List.replicate nmb (List.replicate nn sentinelEntry)

/-- The full `nghbr` table of `SetNeighbors`: one row per block `b`,
searched from `lloclist[mbgid[b]]`. -/
def setNghbrTable (m : Mesh) (ft : FindFn) (rk : Int → Int)
    (nmb : Nat) (mbgid : List Int) (nn : Nat) : List (List NbrEntry) :=
  (List.range nmb).map fun b => rowFor m ft rk (m.lloclist (mbgid.getD b 0)) nn

/-- The per-pack state of the `MeshBlock` class touched or readable by
the functions of meshblock.cpp: gid, level, boundary-flag and cost arrays
plus the neighbor count and table.  Cost values are opaque weights; only
their identity matters here. -/
structure MeshBlockSt where
  nmb : Nat
  mbgid : List Int
  mblev : List Int
  mbbcs : List (List BoundaryFlag)
  mbcost : List Int
  nnghbr : Int
  nghbr : List (List NbrEntry)

/-- `MeshBlock::SetNeighbors` as a state transformer: it assigns `nnghbr`
and rebuilds `nghbr`, leaving every other member of the class untouched
(lines 122-243 write no other field). -/
def setNeighborsSt (st : MeshBlockSt) (m : Mesh) (ft : FindFn) (rk : Int → Int) : MeshBlockSt :=
  let nn := nnghbrOf st.nnghbr m.one_d m.two_d m.three_d
  { st with nnghbr := nn, nghbr := setNghbrTable m ft rk st.nmb st.mbgid nn.toNat }

/-- A node reachable by one `FindNeighbor` call from `loc`, directly or
through one `GetLeaf` child selection — the only sources of data written
into a neighbor slot. -/
def FoundNode (ft : FindFn) (loc : LogicalLocation) (nt : MBTree) : Prop :=
  ∃ o1 o2 o3 nt0, ft loc o1 o2 o3 = some nt0 ∧
    (nt = nt0 ∨ ∃ i j k, nt = nt0.GetLeaf i j k)

/-! Concrete scenario: a 3D mesh with a single root block (root level 0),
refined once into 8 level-1 blocks (gids 0..7 by octant index), with the
octant-(0,1,0) child refined again into 8 level-2 leaves (gids 8..15).
Block gid 0 sits at location (level 1; 0,0,0); its +x2 face neighbor is
the refined (internal) node. -/

/-- The eight level-2 leaves of the twice-refined octant, gids 8..15,
coordinates (di, 2+dj, dk). -/
def grandKids3 : List MBTree :=
  (List.range 8).map fun (i : Nat) =>
    .node (8 + Int.ofNat i) ⟨2, Int.ofNat (i % 2), 2 + Int.ofNat (i / 2 % 2), Int.ofNat (i / 4)⟩ none

/-- The level-1 children of the root: leaves except octant (0,1,0)
(index 2), which is internal with `grandKids3` below it. -/
def kids3 : List MBTree :=
  (List.range 8).map fun i =>
    if i = 2 then .node 2 ⟨1, 0, 1, 0⟩ (some grandKids3)
    else .node (Int.ofNat i) ⟨1, Int.ofNat (i % 2), Int.ofNat (i / 2 % 2), Int.ofNat (i / 4)⟩ none

/-- The tree of the scenario: single level-0 root over `kids3`. -/
def tree3 : MBTree := .node (-1) ⟨0, 0, 0, 0⟩ (some kids3)

/-- A 3D mesh over the single root block: all dimensionality flags for
three dimensions, root grid 1x1x1 at root level 0, non-periodic. -/
def mesh3 : Mesh :=
  { one_d := false, two_d := false, three_d := true, multi_d := true,
    nx2 := 4, nx3 := 4, root_level := 0,
    nmb_rootx1 := 1, nmb_rootx2 := 1, nmb_rootx3 := 1,
    mesh_bcs := fun _ => .physical 1,
    lloclist := fun g => if g = 0 then ⟨1, 0, 0, 0⟩ else ⟨0, 0, 0, 0⟩ }

/-- The tree search of the 3D scenario. -/
def ft3 : FindFn := findNeighborM tree3 0 1 1 1 false false false

/-- Rank map of the 3D scenario: identity. -/
def rank3 : Int → Int := fun g => g

/-- The location of block gid 0 in the 3D scenario. -/
def locB : LogicalLocation := ⟨1, 0, 0, 0⟩

/-! Concrete scenario: a 1D mesh of two root blocks (root level 1),
non-periodic.  The rank map is given as an association list that has no
entry for gid 1; reading the raw `int*` rank array at a missing gid is
modelled as yielding an arbitrary junk value (-99). -/

/-- The 1D tree: root with the two level-1 leaves gid 0 and gid 1. -/
def tree1d : MBTree :=
  .node (-1) ⟨0, 0, 0, 0⟩ (some [.node 0 ⟨1, 0, 0, 0⟩ none, .node 1 ⟨1, 1, 0, 0⟩ none])

/-- The 1D mesh: two root blocks on x1 at root level 1, degenerate x2/x3. -/
def mesh1d : Mesh :=
  { one_d := true, two_d := false, three_d := false, multi_d := false,
    nx2 := 1, nx3 := 1, root_level := 1,
    nmb_rootx1 := 2, nmb_rootx2 := 1, nmb_rootx3 := 1,
    mesh_bcs := fun _ => .physical 2,
    lloclist := fun g => if g = 0 then ⟨1, 0, 0, 0⟩ else ⟨1, 1, 0, 0⟩ }

/-- The tree search of the 1D scenario. -/
def ft1d : FindFn := findNeighborM tree1d 1 2 1 1 false false false

/-- The supplied gid-to-rank association list: gid 0 only; gid 1 (a live
neighbor) has no entry. -/
def rmap8 : List (Int × Int) := [(0, 0)]

/-- The rank array as `SetNeighbors` reads it: unchecked indexing, with
the value at a gid absent from `rmap8` modelled as junk (-99). -/
def rank8 : Int → Int := fun g => (List.lookup g rmap8).getD (-99)

/-- The MeshBlock state of the 1D scenario before the resolve pass. -/
def st8 : MeshBlockSt :=
  { nmb := 2, mbgid := [0, 1], mblev := [1, 1], mbbcs := [], mbcost := [],
    nnghbr := 0, nghbr := [] }

/-! Helper lemmas. -/

theorem getD_set_ne (l : List NbrEntry) (i : Nat) (e : NbrEntry) (s : Nat)
    (d : NbrEntry) (h : i ≠ s) : (l.set i e).getD s d = l.getD s d := by
  simp [List.getD, List.get?_eq_getElem?, List.getElem?_set_ne h]

theorem getD_replicate_sentinel (nn s : Nat) :
    (List.replicate nn sentinelEntry).getD s sentinelEntry = sentinelEntry := by
  induction nn generalizing s with
  | zero => rfl
  | succ n ih =>
    cases s with
    | zero => rfl
    | succ s => simp [List.replicate_succ, ih s]


theorem procQ_getD_ne (ft : FindFn) (rk : Int → Int) (loc : LogicalLocation)
    (row : List NbrEntry) (q : Query) (s : Nat) (h : q.slot.toNat ≠ s) :
    (procQ ft rk loc row q).getD s sentinelEntry = row.getD s sentinelEntry := by
  rcases hft : ft loc q.o1 q.o2 q.o3 with _ | nt
  · simp [procQ, hft]
  · simp only [procQ, hft]
    exact getD_set_ne _ _ _ _ _ h

theorem foldl_procQ_getD (ft : FindFn) (rk : Int → Int) (loc : LogicalLocation)
    (qs : List Query) (s : Nat) :
    ∀ row : List NbrEntry,
      (∀ q ∈ qs, q.slot.toNat = s → ft loc q.o1 q.o2 q.o3 = none) →
      (qs.foldl (procQ ft rk loc) row).getD s sentinelEntry = row.getD s sentinelEntry := by
  induction qs with
  | nil => intro row _; rfl
  | cons q qs ih =>
    intro row h
    rw [List.foldl_cons, ih _ fun q' hq' => h q' (List.mem_cons_of_mem _ hq')]
    by_cases hs : q.slot.toNat = s
    · have hnone := h q (List.mem_cons_self _ _) hs
      simp [procQ, hnone]
    · exact procQ_getD_ne ft rk loc row q s hs

theorem procX1_getD_ne (ft : FindFn) (rk : Int → Int) (loc : LogicalLocation)
    (row : List NbrEntry) (n : Int) (s : Nat)
    (h : ((1 + n) / 2).toNat ≠ s ∨ ft loc n 0 0 = none) :
    (procX1 ft rk loc row n).getD s sentinelEntry = row.getD s sentinelEntry := by
  rcases hft : ft loc n 0 0 with _ | nt
  · simp [procX1, hft]
  · rcases h with h | h
    · rcases hp : nt.pleaf_ with _ | kids <;>
        (simp only [procX1, hft, hp]; exact getD_set_ne _ _ _ _ _ h)
    · rw [h] at hft; exact absurd hft (by simp)

/-- No-write property of a whole block row: a slot for which every query
targeting it finds no neighbor keeps the sentinel through the pass. -/
theorem rowFor_noWrite (m : Mesh) (ft : FindFn) (rk : Int → Int)
    (loc : LogicalLocation) (nn : Nat) (s : Nat)
    (h : ∀ q ∈ effQueries m.multi_d m.three_d, q.slot.toNat = s →
      ft loc q.o1 q.o2 q.o3 = none) :
    (rowFor m ft rk loc nn).getD s sentinelEntry = sentinelEntry := by
  have hx1 : ∀ q ∈ x1Qs, q.slot.toNat = s → ft loc q.o1 q.o2 q.o3 = none := by
    intro q hq
    exact h q (by simp [effQueries, hq])
  have hm : ∀ q ∈ x2faceQs ++ x1x2Qs, m.multi_d = true → q.slot.toNat = s →
      ft loc q.o1 q.o2 q.o3 = none := by
    intro q hq hmd
    rcases List.mem_append.mp hq with hq' | hq' <;>
      exact h q (by simp [effQueries, hmd, hq'])
  have ht : ∀ q ∈ x3faceQs ++ x3x1Qs ++ x2x3Qs ++ cornerQs, m.three_d = true →
      q.slot.toNat = s → ft loc q.o1 q.o2 q.o3 = none := by
    intro q hq htd
    rcases List.mem_append.mp hq with hq' | hq'
    · rcases List.mem_append.mp hq' with hq2 | hq2
      · rcases List.mem_append.mp hq2 with hq3 | hq3 <;>
          exact h q (by simp [effQueries, htd, hq3])
      · exact h q (by simp [effQueries, htd, hq2])
    · exact h q (by simp [effQueries, htd, hq'])
  have hqm1 : ((1 + (-1 : Int)) / 2).toNat ≠ s ∨ ft loc (-1) 0 0 = none := by
    by_cases hs : ((1 + (-1 : Int)) / 2).toNat = s
    · exact Or.inr (hx1 ⟨-1, 0, 0, (1 + (-1)) / 2, (1 - (-1)) / 2⟩ (by simp [x1Qs]) hs)
    · exact Or.inl hs
  have hqp1 : ((1 + (1 : Int)) / 2).toNat ≠ s ∨ ft loc 1 0 0 = none := by
    by_cases hs : ((1 + (1 : Int)) / 2).toNat = s
    · exact Or.inr (hx1 ⟨1, 0, 0, (1 + 1) / 2, (1 - 1) / 2⟩ (by simp [x1Qs]) hs)
    · exact Or.inl hs
  unfold rowFor
  rcases h3 : m.three_d with _ | _ <;> rcases h2 : m.multi_d with _ | _ <;>
    simp only [Bool.false_eq_true, if_false, if_true, reduceIte] <;>
    first
    | rw [procX1_getD_ne _ _ _ _ _ _ hqp1, procX1_getD_ne _ _ _ _ _ _ hqm1,
        getD_replicate_sentinel]
    | rw [foldl_procQ_getD _ _ _ _ _ _ (fun q hq hs => hm q hq h2 hs),
        procX1_getD_ne _ _ _ _ _ _ hqp1, procX1_getD_ne _ _ _ _ _ _ hqm1,
        getD_replicate_sentinel]
    | rw [foldl_procQ_getD _ _ _ _ _ _ (fun q hq hs => ht q hq h3 hs),
        procX1_getD_ne _ _ _ _ _ _ hqp1, procX1_getD_ne _ _ _ _ _ _ hqm1,
        getD_replicate_sentinel]
    | rw [foldl_procQ_getD _ _ _ _ _ _ (fun q hq hs => ht q hq h3 hs),
        foldl_procQ_getD _ _ _ _ _ _ (fun q hq hs => hm q hq h2 hs),
        procX1_getD_ne _ _ _ _ _ _ hqp1, procX1_getD_ne _ _ _ _ _ _ hqm1,
        getD_replicate_sentinel]

theorem procQ_length (ft : FindFn) (rk : Int → Int) (loc : LogicalLocation)
    (row : List NbrEntry) (q : Query) : (procQ ft rk loc row q).length = row.length := by
  rcases hft : ft loc q.o1 q.o2 q.o3 with _ | nt <;> simp [procQ, hft]

theorem foldl_procQ_length (ft : FindFn) (rk : Int → Int) (loc : LogicalLocation)
    (qs : List Query) : ∀ row : List NbrEntry,
    (qs.foldl (procQ ft rk loc) row).length = row.length := by
  induction qs with
  | nil => intro row; rfl
  | cons q qs ih => intro row; rw [List.foldl_cons, ih, procQ_length]

theorem procX1_length (ft : FindFn) (rk : Int → Int) (loc : LogicalLocation)
    (row : List NbrEntry) (n : Int) : (procX1 ft rk loc row n).length = row.length := by
  rcases hft : ft loc n 0 0 with _ | nt
  · simp [procX1, hft]
  · rcases hp : nt.pleaf_ with _ | kids <;> simp [procX1, hft, hp]

theorem rowFor_length (m : Mesh) (ft : FindFn) (rk : Int → Int)
    (loc : LogicalLocation) (nn : Nat) : (rowFor m ft rk loc nn).length = nn := by
  unfold rowFor
  rcases m.three_d with _ | _ <;> rcases m.multi_d with _ | _ <;>
    simp [foldl_procQ_length, procX1_length]

theorem procQ_mem (ft : FindFn) (rk : Int → Int) (loc : LogicalLocation)
    (row : List NbrEntry) (q : Query) (e : NbrEntry) (he : e ∈ procQ ft rk loc row q) :
    e ∈ row ∨ ∃ nt, ft loc q.o1 q.o2 q.o3 = some nt ∧
      e = ⟨nt.gid_, nt.loc_.level, rk nt.gid_, q.destn⟩ := by
  rcases hft : ft loc q.o1 q.o2 q.o3 with _ | nt
  · rw [procQ, hft] at he; exact Or.inl he
  · rw [procQ, hft] at he
    rcases List.mem_or_eq_of_mem_set he with h' | h'
    · exact Or.inl h'
    · exact Or.inr ⟨nt, rfl, h'⟩

theorem foldl_procQ_mem (ft : FindFn) (rk : Int → Int) (loc : LogicalLocation)
    (qs : List Query) : ∀ (row : List NbrEntry) (e : NbrEntry),
    e ∈ qs.foldl (procQ ft rk loc) row →
    e ∈ row ∨ ∃ q ∈ qs, ∃ nt, ft loc q.o1 q.o2 q.o3 = some nt ∧
      e = ⟨nt.gid_, nt.loc_.level, rk nt.gid_, q.destn⟩ := by
  induction qs with
  | nil => intro row e he; exact Or.inl he
  | cons q qs ih =>
    intro row e he
    rw [List.foldl_cons] at he
    rcases ih _ _ he with h' | ⟨q', hq', nt, hft, hee⟩
    · rcases procQ_mem ft rk loc row q e h' with h'' | ⟨nt, hft, hee⟩
      · exact Or.inl h''
      · exact Or.inr ⟨q, List.mem_cons_self _ _, nt, hft, hee⟩
    · exact Or.inr ⟨q', List.mem_cons_of_mem _ hq', nt, hft, hee⟩

theorem procX1_mem (ft : FindFn) (rk : Int → Int) (loc : LogicalLocation)
    (row : List NbrEntry) (n : Int) (e : NbrEntry) (he : e ∈ procX1 ft rk loc row n) :
    e ∈ row ∨ ∃ nt, ft loc n 0 0 = some nt ∧
      (e = ⟨nt.gid_, nt.loc_.level, rk nt.gid_, (1 - n) / 2⟩ ∨
       e = ⟨(nt.GetLeaf (1 - (n + 1) / 2) 0 0).gid_,
            (nt.GetLeaf (1 - (n + 1) / 2) 0 0).loc_.level,
            rk (nt.GetLeaf (1 - (n + 1) / 2) 0 0).gid_, (1 - n) / 2⟩) := by
  rcases hft : ft loc n 0 0 with _ | nt
  · rw [procX1, hft] at he; exact Or.inl he
  · simp only [procX1, hft] at he
    rcases hp : nt.pleaf_ with _ | kids <;> simp only [hp] at he <;>
      rcases List.mem_or_eq_of_mem_set he with h' | h'
    · exact Or.inl h'
    · exact Or.inr ⟨nt, rfl, Or.inl h'⟩
    · exact Or.inl h'
    · exact Or.inr ⟨nt, rfl, Or.inr h'⟩

theorem procQ_congr (ft ft' : FindFn) (rk : Int → Int) (loc : LogicalLocation)
    (row : List NbrEntry) (q : Query)
    (h : ft loc q.o1 q.o2 q.o3 = ft' loc q.o1 q.o2 q.o3) :
    procQ ft rk loc row q = procQ ft' rk loc row q := by
  unfold procQ; rw [h]

theorem foldl_procQ_congr (ft ft' : FindFn) (rk : Int → Int) (loc : LogicalLocation)
    (qs : List Query) : ∀ row : List NbrEntry,
    (∀ q ∈ qs, ft loc q.o1 q.o2 q.o3 = ft' loc q.o1 q.o2 q.o3) →
    qs.foldl (procQ ft rk loc) row = qs.foldl (procQ ft' rk loc) row := by
  induction qs with
  | nil => intro row _; rfl
  | cons q qs ih =>
    intro row h
    rw [List.foldl_cons, List.foldl_cons,
      procQ_congr ft ft' rk loc row q (h q (List.mem_cons_self _ _))]
    exact ih _ fun q' hq' => h q' (List.mem_cons_of_mem _ hq')

theorem procX1_congr (ft ft' : FindFn) (rk : Int → Int) (loc : LogicalLocation)
    (row : List NbrEntry) (n : Int) (h : ft loc n 0 0 = ft' loc n 0 0) :
    procX1 ft rk loc row n = procX1 ft' rk loc row n := by
  unfold procX1; rw [h]

/-- C1: Reciprocity of the neighbor-slot protocol.  Every query issued by
`SetNeighbors` writes its slot at the closed-form index `slotOf` of its
direction tuple with `destn` equal to `destnOf` of the same tuple, and for
every admitted direction offset `(n,m,l)` in `{-1,0,1}^3` minus the origin
the `destn` value equals the slot-index formula evaluated at the negated
offset `(-n,-m,-l)`. -/
theorem destn_slot_reciprocity :
    (∀ q ∈ effQueries true true,
      q.slot = slotOf q.o1 q.o2 q.o3 ∧ q.destn = destnOf q.o1 q.o2 q.o3)
  ∧ (∀ n m l : Int, (n = -1 ∨ n = 0 ∨ n = 1) → (m = -1 ∨ m = 0 ∨ m = 1) →
      (l = -1 ∨ l = 0 ∨ l = 1) → ¬(n = 0 ∧ m = 0 ∧ l = 0) →
      destnOf n m l = slotOf (-n) (-m) (-l)) := by
  constructor
  · decide
  · intro n m l hn hm hl h0
    rcases hn with rfl | rfl | rfl <;> rcases hm with rfl | rfl | rfl <;>
      rcases hl with rfl | rfl | rfl <;> decide

/-- Witness for C1 at the concrete offset (1,0,0). -/
theorem destn_slot_reciprocity_witness :
    destnOf 1 0 0 = slotOf (-1) 0 0 :=
  destn_slot_reciprocity.2 1 0 0 (by decide) (by decide) (by decide) (by decide)

/-- C6: on a degenerate axis (no subdivision: `nx2 = 1`, resp. `nx3 = 1`)
both faces of every block on that axis are classified with the configured
inner and outer physical boundary conditions, regardless of the block's
position and level. -/
theorem degenerate_axis_faces_physical :
    ∀ (pm : Mesh) (loc : LogicalLocation),
      (pm.nx2 = 1 →
        (mbbcsRow pm loc).getD 2 .block = pm.mesh_bcs .inner_x2 ∧
        (mbbcsRow pm loc).getD 3 .block = pm.mesh_bcs .outer_x2)
    ∧ (pm.nx3 = 1 →
        (mbbcsRow pm loc).getD 4 .block = pm.mesh_bcs .inner_x3 ∧
        (mbbcsRow pm loc).getD 5 .block = pm.mesh_bcs .outer_x3) := by
  intro pm loc
  constructor
  · intro h2
    constructor <;> simp [mbbcsRow, h2]
  · intro h3
    constructor <;> simp [mbbcsRow, h3]

/-- Witness for C6: in the 1D scenario mesh both x2 faces and both x3
faces of block (level 1; 0,0,0) carry the configured physical flags. -/
theorem degenerate_axis_faces_physical_witness :
    ((mbbcsRow mesh1d ⟨1, 0, 0, 0⟩).getD 2 .block = mesh1d.mesh_bcs .inner_x2 ∧
     (mbbcsRow mesh1d ⟨1, 0, 0, 0⟩).getD 3 .block = mesh1d.mesh_bcs .outer_x2) ∧
    ((mbbcsRow mesh1d ⟨1, 0, 0, 0⟩).getD 4 .block = mesh1d.mesh_bcs .inner_x3 ∧
     (mbbcsRow mesh1d ⟨1, 0, 0, 0⟩).getD 5 .block = mesh1d.mesh_bcs .outer_x3) :=
  ⟨(degenerate_axis_faces_physical mesh1d ⟨1, 0, 0, 0⟩).1 rfl,
   (degenerate_axis_faces_physical mesh1d ⟨1, 0, 0, 0⟩).2 rfl⟩

/-- C10: frame of `SetNeighbors`: the pass assigns only `nnghbr` and the
`nghbr` table; the gid, level, boundary-flag and cost arrays of the
MeshBlock state are unchanged for every mesh, tree search and rank map. -/
theorem setNeighbors_frame :
    ∀ (st : MeshBlockSt) (m : Mesh) (ft : FindFn) (rk : Int → Int),
      (setNeighborsSt st m ft rk).mbgid = st.mbgid
    ∧ (setNeighborsSt st m ft rk).mblev = st.mblev
    ∧ (setNeighborsSt st m ft rk).mbbcs = st.mbbcs
    ∧ (setNeighborsSt st m ft rk).mbcost = st.mbcost
    ∧ (setNeighborsSt st m ft rk).nmb = st.nmb :=
  fun _ _ _ _ => ⟨rfl, rfl, rfl, rfl, rfl⟩

theorem classify_iff (bc : BoundaryFlag) (c : Prop) [Decidable c] (hbc : bc ≠ .block) :
    ((if c then bc else .block) = bc ↔ c) := by
  split_ifs with hx
  · simp [hx]
  · constructor
    · intro h; exact absurd h.symm hbc
    · intro h; exact absurd h hx

/-- C3: face classification on non-degenerate axes.  On x1 (always
subdivided), and on x2/x3 when `nx2 ≠ 1` / `nx3 ≠ 1`: the low face
carries the configured inner condition exactly when the logical
coordinate is 0, the high face carries the configured outer condition
exactly when the coordinate is `nmbRoot·2^(level-rootLevel) - 1`, and any
other face is classified `block`.  The equivalences assume the configured
condition is not itself the `block` flag. -/
theorem face_bc_classification :
    ∀ (pm : Mesh) (loc : LogicalLocation),
      (pm.mesh_bcs .inner_x1 ≠ .block →
        ((mbbcsRow pm loc).getD 0 .block = pm.mesh_bcs .inner_x1 ↔ loc.lx1 = 0))
    ∧ (loc.lx1 ≠ 0 → (mbbcsRow pm loc).getD 0 .block = .block)
    ∧ (pm.mesh_bcs .outer_x1 ≠ .block →
        ((mbbcsRow pm loc).getD 1 .block = pm.mesh_bcs .outer_x1 ↔
          loc.lx1 = pm.nmb_rootx1 * 2 ^ (loc.level - pm.root_level).toNat - 1))
    ∧ (loc.lx1 ≠ pm.nmb_rootx1 * 2 ^ (loc.level - pm.root_level).toNat - 1 →
        (mbbcsRow pm loc).getD 1 .block = .block)
    ∧ (pm.nx2 ≠ 1 →
        (pm.mesh_bcs .inner_x2 ≠ .block →
          ((mbbcsRow pm loc).getD 2 .block = pm.mesh_bcs .inner_x2 ↔ loc.lx2 = 0))
      ∧ (loc.lx2 ≠ 0 → (mbbcsRow pm loc).getD 2 .block = .block)
      ∧ (pm.mesh_bcs .outer_x2 ≠ .block →
          ((mbbcsRow pm loc).getD 3 .block = pm.mesh_bcs .outer_x2 ↔
            loc.lx2 = pm.nmb_rootx2 * 2 ^ (loc.level - pm.root_level).toNat - 1))
      ∧ (loc.lx2 ≠ pm.nmb_rootx2 * 2 ^ (loc.level - pm.root_level).toNat - 1 →
          (mbbcsRow pm loc).getD 3 .block = .block))
    ∧ (pm.nx3 ≠ 1 →
        (pm.mesh_bcs .inner_x3 ≠ .block →
          ((mbbcsRow pm loc).getD 4 .block = pm.mesh_bcs .inner_x3 ↔ loc.lx3 = 0))
      ∧ (loc.lx3 ≠ 0 → (mbbcsRow pm loc).getD 4 .block = .block)
      ∧ (pm.mesh_bcs .outer_x3 ≠ .block →
          ((mbbcsRow pm loc).getD 5 .block = pm.mesh_bcs .outer_x3 ↔
            loc.lx3 = pm.nmb_rootx3 * 2 ^ (loc.level - pm.root_level).toNat - 1))
      ∧ (loc.lx3 ≠ pm.nmb_rootx3 * 2 ^ (loc.level - pm.root_level).toNat - 1 →
          (mbbcsRow pm loc).getD 5 .block = .block)) := by
  intro pm loc
  have g0 : (mbbcsRow pm loc).getD 0 .block =
      (if loc.lx1 = 0 then pm.mesh_bcs .inner_x1 else .block) := rfl
  have g1 : (mbbcsRow pm loc).getD 1 .block =
      (if loc.lx1 = pm.nmb_rootx1 * 2 ^ (loc.level - pm.root_level).toNat - 1 then
        pm.mesh_bcs .outer_x1 else .block) := rfl
  have g2 : (mbbcsRow pm loc).getD 2 .block =
      (if pm.nx2 = 1 then pm.mesh_bcs .inner_x2
       else if loc.lx2 = 0 then pm.mesh_bcs .inner_x2 else .block) := rfl
  have g3 : (mbbcsRow pm loc).getD 3 .block =
      (if pm.nx2 = 1 then pm.mesh_bcs .outer_x2
       else if loc.lx2 = pm.nmb_rootx2 * 2 ^ (loc.level - pm.root_level).toNat - 1 then
        pm.mesh_bcs .outer_x2 else .block) := rfl
  have g4 : (mbbcsRow pm loc).getD 4 .block =
      (if pm.nx3 = 1 then pm.mesh_bcs .inner_x3
       else if loc.lx3 = 0 then pm.mesh_bcs .inner_x3 else .block) := rfl
  have g5 : (mbbcsRow pm loc).getD 5 .block =
      (if pm.nx3 = 1 then pm.mesh_bcs .outer_x3
       else if loc.lx3 = pm.nmb_rootx3 * 2 ^ (loc.level - pm.root_level).toNat - 1 then
        pm.mesh_bcs .outer_x3 else .block) := rfl
  refine ⟨?_, ?_, ?_, ?_, fun h2 => ⟨?_, ?_, ?_, ?_⟩, fun h3 => ⟨?_, ?_, ?_, ?_⟩⟩
  · intro hbc; rw [g0]; exact classify_iff _ _ hbc
  · intro hx; rw [g0]; exact if_neg hx
  · intro hbc; rw [g1]; exact classify_iff _ _ hbc
  · intro hx; rw [g1]; exact if_neg hx
  · intro hbc; rw [g2, if_neg h2]; exact classify_iff _ _ hbc
  · intro hx; rw [g2, if_neg h2]; exact if_neg hx
  · intro hbc; rw [g3, if_neg h2]; exact classify_iff _ _ hbc
  · intro hx; rw [g3, if_neg h2]; exact if_neg hx
  · intro hbc; rw [g4, if_neg h3]; exact classify_iff _ _ hbc
  · intro hx; rw [g4, if_neg h3]; exact if_neg hx
  · intro hbc; rw [g5, if_neg h3]; exact classify_iff _ _ hbc
  · intro hx; rw [g5, if_neg h3]; exact if_neg hx

/-- Witness for C3: the single unrefined root block of the 3D scenario
mesh has its x1, x2 and x3 faces all classified physical: every
coordinate is both 0 and at the high extreme of a 1x1x1 root grid. -/
theorem face_bc_classification_witness :
    (mbbcsRow mesh3 ⟨0, 0, 0, 0⟩).getD 0 .block = mesh3.mesh_bcs .inner_x1 ∧
    (mbbcsRow mesh3 ⟨0, 0, 0, 0⟩).getD 1 .block = mesh3.mesh_bcs .outer_x1 ∧
    (mbbcsRow mesh3 ⟨0, 0, 0, 0⟩).getD 2 .block = mesh3.mesh_bcs .inner_x2 ∧
    (mbbcsRow mesh3 ⟨0, 0, 0, 0⟩).getD 3 .block = mesh3.mesh_bcs .outer_x2 ∧
    (mbbcsRow mesh3 ⟨0, 0, 0, 0⟩).getD 4 .block = mesh3.mesh_bcs .inner_x3 ∧
    (mbbcsRow mesh3 ⟨0, 0, 0, 0⟩).getD 5 .block = mesh3.mesh_bcs .outer_x3 :=
  ⟨((face_bc_classification mesh3 ⟨0, 0, 0, 0⟩).1 (by decide)).mpr (by decide),
   ((face_bc_classification mesh3 ⟨0, 0, 0, 0⟩).2.2.1 (by decide)).mpr (by decide),
   (((face_bc_classification mesh3 ⟨0, 0, 0, 0⟩).2.2.2.2.1 (by decide)).1 (by decide)).mpr (by decide),
   (((face_bc_classification mesh3 ⟨0, 0, 0, 0⟩).2.2.2.2.1 (by decide)).2.2.1 (by decide)).mpr (by decide),
   (((face_bc_classification mesh3 ⟨0, 0, 0, 0⟩).2.2.2.2.2 (by decide)).1 (by decide)).mpr (by decide),
   (((face_bc_classification mesh3 ⟨0, 0, 0, 0⟩).2.2.2.2.2 (by decide)).2.2.1 (by decide)).mpr (by decide)⟩

/-- C4: `SetNeighbors` sizes the neighbor table at 2 slots per block for a
1D mesh, 8 for 2D, 26 for 3D (whatever value `nnghbr` held before); the
table holds one row per block; after the initialization loop every slot
holds the all-(-1) sentinel; and a slot none of whose queries finds a
neighbor ends the pass still holding the sentinel. -/
theorem setNeighbors_alloc_and_init :
    (∀ prev : Int, nnghbrOf prev true false false = 2)
  ∧ (∀ (prev : Int) (o : Bool), nnghbrOf prev o true false = 8)
  ∧ (∀ (prev : Int) (o t : Bool), nnghbrOf prev o t true = 26)
  ∧ (∀ nmb nn b s : Nat, ∀ d : NbrEntry, b < nmb → s < nn →
      ((initTable nmb nn).getD b []).getD s d = sentinelEntry)
  ∧ (∀ (m : Mesh) (ft : FindFn) (rk : Int → Int) (nmb nn : Nat) (gids : List Int),
      (setNghbrTable m ft rk nmb gids nn).length = nmb)
  ∧ (∀ (m : Mesh) (ft : FindFn) (rk : Int → Int) (nmb nn : Nat) (gids : List Int)
      (row : List NbrEntry), row ∈ setNghbrTable m ft rk nmb gids nn → row.length = nn)
  ∧ (∀ (m : Mesh) (ft : FindFn) (rk : Int → Int) (loc : LogicalLocation) (nn s : Nat),
      (∀ q ∈ effQueries m.multi_d m.three_d, q.slot.toNat = s →
        ft loc q.o1 q.o2 q.o3 = none) →
      (rowFor m ft rk loc nn).getD s sentinelEntry = sentinelEntry) := by
  refine ⟨fun _ => rfl, ?_, ?_, ?_, ?_, ?_, rowFor_noWrite⟩
  · intro prev o; cases o <;> rfl
  · intro prev o t; cases o <;> cases t <;> rfl
  · intro nmb nn b s d hb hs
    have h1 : (initTable nmb nn).getD b [] = List.replicate nn sentinelEntry := by
      simp [initTable, List.getD, List.getElem?_replicate, hb]
    rw [h1]
    simp [List.getD, List.getElem?_replicate, hs]
  · intro m ft rk nmb nn gids
    simp [setNghbrTable]
  · intro m ft rk nmb nn gids row hrow
    rcases List.mem_map.mp hrow with ⟨b, _, rfl⟩
    exact rowFor_length m ft rk _ nn

/-- Witness for C4: in the 1D scenario the table is 2 wide, the
initialization covers slot (1,1), and under a tree search that finds
nothing every slot, here slot 0, ends the pass at the sentinel. -/
theorem setNeighbors_alloc_and_init_witness :
    nnghbrOf 7 true false false = 2 ∧
    ((initTable 2 2).getD 1 []).getD 1 ⟨5, 5, 5, 5⟩ = sentinelEntry ∧
    (rowFor mesh1d (fun _ _ _ _ => none) rank8 ⟨1, 0, 0, 0⟩ 2).getD 0 sentinelEntry =
      sentinelEntry :=
  ⟨setNeighbors_alloc_and_init.1 7,
   setNeighbors_alloc_and_init.2.2.2.1 2 2 1 1 ⟨5, 5, 5, 5⟩ (by decide) (by decide),
   setNeighbors_alloc_and_init.2.2.2.2.2.2 mesh1d (fun _ _ _ _ => none) rank8
     ⟨1, 0, 0, 0⟩ 2 0 (fun _ _ _ => rfl)⟩

/-- C5: queries along degenerate axes are skipped entirely.  Without a
second dimension the pass reads the tree search only at zero x2/x3
offsets; without a third dimension only at zero x3 offsets (its result
cannot depend on the search anywhere else).  The slot ranges of the
skipped directions are not even allocated: reading them yields nothing,
the absent form of the no-neighbor sentinel. -/
theorem degenerate_axis_queries_skipped :
    (∀ (m : Mesh) (ft ft' : FindFn) (rk : Int → Int) (loc : LogicalLocation) (nn : Nat),
      m.multi_d = false → m.three_d = false →
      (∀ (l : LogicalLocation) (o1 : Int), ft l o1 0 0 = ft' l o1 0 0) →
      rowFor m ft rk loc nn = rowFor m ft' rk loc nn)
  ∧ (∀ (m : Mesh) (ft ft' : FindFn) (rk : Int → Int) (loc : LogicalLocation) (nn : Nat),
      m.three_d = false →
      (∀ (l : LogicalLocation) (o1 o2 : Int), ft l o1 o2 0 = ft' l o1 o2 0) →
      rowFor m ft rk loc nn = rowFor m ft' rk loc nn)
  ∧ (∀ (m : Mesh) (ft : FindFn) (rk : Int → Int) (loc : LogicalLocation) (prev : Int)
      (s : Nat), m.one_d = true → m.two_d = false → m.three_d = false → 2 ≤ s →
      (rowFor m ft rk loc (nnghbrOf prev m.one_d m.two_d m.three_d).toNat).get? s = none)
  ∧ (∀ (m : Mesh) (ft : FindFn) (rk : Int → Int) (loc : LogicalLocation) (prev : Int)
      (s : Nat), m.one_d = false → m.two_d = true → m.three_d = false → 8 ≤ s →
      (rowFor m ft rk loc (nnghbrOf prev m.one_d m.two_d m.three_d).toNat).get? s = none) := by
  have ho3 : ∀ q ∈ x2faceQs ++ x1x2Qs, q.o3 = 0 := by decide
  refine ⟨?_, ?_, ?_, ?_⟩
  · intro m ft ft' rk loc nn hmd htd h
    unfold rowFor
    rw [hmd, htd]
    simp only [Bool.false_eq_true, if_false]
    rw [procX1_congr ft ft' rk loc _ (-1) (h loc (-1))]
    rw [procX1_congr ft ft' rk loc _ 1 (h loc 1)]
  · intro m ft ft' rk loc nn htd h
    unfold rowFor
    rw [htd]
    simp only [Bool.false_eq_true, if_false]
    rw [procX1_congr ft ft' rk loc _ (-1) (h loc (-1) 0)]
    rw [procX1_congr ft ft' rk loc _ 1 (h loc 1 0)]
    rcases hmd : m.multi_d with _ | _
    · simp only [Bool.false_eq_true, if_false]
    · simp only [if_true]
      apply foldl_procQ_congr
      intro q hq
      have h0 : q.o3 = 0 := ho3 q hq
      rw [h0]
      exact h loc q.o1 q.o2
  · intro m ft rk loc prev s h1 h2 h3 hs
    rw [h1, h2, h3]
    apply List.get?_eq_none.mpr
    rw [rowFor_length]
    exact hs
  · intro m ft rk loc prev s h1 h2 h3 hs
    rw [h1, h2, h3]
    apply List.get?_eq_none.mpr
    rw [rowFor_length]
    have h8 : (nnghbrOf prev false true false).toNat = 8 := rfl
    rw [h8]
    exact hs

/-- Witness for C5: in the 1D scenario two searches that differ only off
the x1 axis produce the same row, and slot 5 (an x2-direction slot) does
not exist in the allocated row. -/
theorem degenerate_axis_queries_skipped_witness :
    rowFor mesh1d ft1d rank8 ⟨1, 0, 0, 0⟩ 2 =
      rowFor mesh1d (fun l o1 o2 o3 => if o2 = 0 ∧ o3 = 0 then ft1d l o1 o2 o3 else
        some (.node 77 ⟨9, 9, 9, 9⟩ none)) rank8 ⟨1, 0, 0, 0⟩ 2 ∧
    (rowFor mesh1d ft1d rank8 ⟨1, 0, 0, 0⟩
      (nnghbrOf 0 mesh1d.one_d mesh1d.two_d mesh1d.three_d).toNat).get? 5 = none :=
  ⟨degenerate_axis_queries_skipped.1 mesh1d ft1d _ rank8 ⟨1, 0, 0, 0⟩ 2 rfl rfl
    (fun l o1 => by simp),
   degenerate_axis_queries_skipped.2.2.1 mesh1d ft1d rank8 ⟨1, 0, 0, 0⟩ 0 5
    rfl rfl rfl (by norm_num)⟩

theorem effQueries_slot_inj :
    ∀ md td : Bool, ∀ q ∈ effQueries md td, ∀ q' ∈ effQueries md td,
      q'.slot.toNat = q.slot.toNat → q' = q := by
  intro md td
  cases md <;> cases td <;> decide

/-- C7: a neighbor query that exits the domain on a non-periodic axis is
not a failure.  The modelled tree search returns null whenever the
computed coordinate leaves the root extent on a non-periodic axis, and a
slot whose query returns null simply keeps its all-(-1) sentinel while
the rest of the pass completes — this is how physical boundaries appear
in the output table. -/
theorem boundary_query_yields_sentinel :
    (∀ (root : MBTree) (rl nr1 nr2 nr3 : Int) (p1 p2 p3 : Bool)
      (loc : LogicalLocation) (o1 o2 o3 : Int),
      (((loc.lx1 + o1 < 0 ∨ nr1 * 2 ^ (loc.level - rl).toNat ≤ loc.lx1 + o1) ∧ p1 = false)
        ∨ ((loc.lx2 + o2 < 0 ∨ nr2 * 2 ^ (loc.level - rl).toNat ≤ loc.lx2 + o2) ∧ p2 = false)
        ∨ ((loc.lx3 + o3 < 0 ∨ nr3 * 2 ^ (loc.level - rl).toNat ≤ loc.lx3 + o3) ∧ p3 = false)) →
      findNeighborM root rl nr1 nr2 nr3 p1 p2 p3 loc o1 o2 o3 = none)
  ∧ (∀ (m : Mesh) (ft : FindFn) (rk : Int → Int) (loc : LogicalLocation) (nn : Nat)
      (q : Query), q ∈ effQueries m.multi_d m.three_d →
      ft loc q.o1 q.o2 q.o3 = none →
      (rowFor m ft rk loc nn).getD q.slot.toNat sentinelEntry = sentinelEntry) := by
  constructor
  · intro root rl nr1 nr2 nr3 p1 p2 p3 loc o1 o2 o3 h
    unfold findNeighborM
    split_ifs with hc1 hc2 hc3
    · rfl
    · rfl
    · rfl
    · exact absurd h (by tauto)
  · intro m ft rk loc nn q hq hft
    apply rowFor_noWrite
    intro q' hq' hs
    have hqq : q' = q := effQueries_slot_inj m.multi_d m.three_d q hq q' hq' hs
    rw [hqq]
    exact hft

/-- Witness for C7: block (level 1; 0,0,0) of the 1D scenario queried in
the -x1 direction leaves the non-periodic domain: the modelled search
returns null and slot 0 of the finished row is the sentinel. -/
theorem boundary_query_yields_sentinel_witness :
    findNeighborM tree1d 1 2 1 1 false false false ⟨1, 0, 0, 0⟩ (-1) 0 0 = none ∧
    (rowFor mesh1d ft1d rank8 ⟨1, 0, 0, 0⟩ 2).getD 0 sentinelEntry = sentinelEntry :=
  ⟨boundary_query_yields_sentinel.1 tree1d 1 2 1 1 false false false
    ⟨1, 0, 0, 0⟩ (-1) 0 0 (Or.inl ⟨Or.inl (by norm_num), rfl⟩),
   boundary_query_yields_sentinel.2 mesh1d ft1d rank8 ⟨1, 0, 0, 0⟩ 2
    ⟨-1, 0, 0, (1 + (-1)) / 2, (1 - (-1)) / 2⟩ (by decide) rfl⟩

theorem rowFor_mem (m : Mesh) (ft : FindFn) (rk : Int → Int) (loc : LogicalLocation)
    (nn : Nat) (e : NbrEntry) (he : e ∈ rowFor m ft rk loc nn) :
    e = sentinelEntry ∨ ∃ nt, FoundNode ft loc nt ∧ e.gid = nt.gid_ ∧
      e.lev = nt.loc_.level ∧ e.rank = rk nt.gid_ ∧ 0 ≤ e.destn := by
  have hd2 : ∀ q ∈ x2faceQs ++ x1x2Qs, (0 : Int) ≤ q.destn := by decide
  have hd3 : ∀ q ∈ x3faceQs ++ x3x1Qs ++ x2x3Qs ++ cornerQs, (0 : Int) ≤ q.destn := by decide
  have hstep : ∀ (qs : List Query) (row : List NbrEntry),
      (∀ q ∈ qs, (0 : Int) ≤ q.destn) →
      (∀ e' ∈ row, e' = sentinelEntry ∨ ∃ nt, FoundNode ft loc nt ∧ e'.gid = nt.gid_ ∧
        e'.lev = nt.loc_.level ∧ e'.rank = rk nt.gid_ ∧ 0 ≤ e'.destn) →
      ∀ e' ∈ qs.foldl (procQ ft rk loc) row,
        e' = sentinelEntry ∨ ∃ nt, FoundNode ft loc nt ∧ e'.gid = nt.gid_ ∧
          e'.lev = nt.loc_.level ∧ e'.rank = rk nt.gid_ ∧ 0 ≤ e'.destn := by
    intro qs row hq hrow e' he'
    rcases foldl_procQ_mem ft rk loc qs row e' he' with h | ⟨q, hqm, nt, hft, rfl⟩
    · exact hrow e' h
    · exact Or.inr ⟨nt, ⟨q.o1, q.o2, q.o3, nt, hft, Or.inl rfl⟩, rfl, rfl, rfl, hq q hqm⟩
  have hx1step : ∀ (n : Int) (row : List NbrEntry), (0 : Int) ≤ (1 - n) / 2 →
      (∀ e' ∈ row, e' = sentinelEntry ∨ ∃ nt, FoundNode ft loc nt ∧ e'.gid = nt.gid_ ∧
        e'.lev = nt.loc_.level ∧ e'.rank = rk nt.gid_ ∧ 0 ≤ e'.destn) →
      ∀ e' ∈ procX1 ft rk loc row n,
        e' = sentinelEntry ∨ ∃ nt, FoundNode ft loc nt ∧ e'.gid = nt.gid_ ∧
          e'.lev = nt.loc_.level ∧ e'.rank = rk nt.gid_ ∧ 0 ≤ e'.destn := by
    intro n row hd hrow e' he'
    rcases procX1_mem ft rk loc row n e' he' with h | ⟨nt, hft, rfl | rfl⟩
    · exact hrow e' h
    · exact Or.inr ⟨nt, ⟨n, 0, 0, nt, hft, Or.inl rfl⟩, rfl, rfl, rfl, hd⟩
    · exact Or.inr ⟨nt.GetLeaf (1 - (n + 1) / 2) 0 0,
        ⟨n, 0, 0, nt, hft, Or.inr ⟨1 - (n + 1) / 2, 0, 0, rfl⟩⟩, rfl, rfl, rfl, hd⟩
  have hbase : ∀ e' ∈ List.replicate nn sentinelEntry,
      e' = sentinelEntry ∨ ∃ nt, FoundNode ft loc nt ∧ e'.gid = nt.gid_ ∧
        e'.lev = nt.loc_.level ∧ e'.rank = rk nt.gid_ ∧ 0 ≤ e'.destn :=
    fun e' he' => Or.inl (List.eq_of_mem_replicate he')
  have hr1 := hx1step (-1) _ (by norm_num) hbase
  have hr2 := hx1step 1 _ (by norm_num) hr1
  revert he
  unfold rowFor
  rcases m.three_d with _ | _ <;> rcases m.multi_d with _ | _ <;>
    simp only [Bool.false_eq_true, if_false, if_true] <;>
    intro he
  · exact hr2 e he
  · exact hstep _ _ hd2 hr2 e he
  · exact hstep _ _ hd3 hr2 e he
  · exact hstep _ _ hd3 (hstep _ _ hd2 hr2) e he

/-- C9: all-or-nothing slot population.  Every entry of every row of the
finished table is either the whole (-1,-1,-1,-1) sentinel or wholly
populated from one node reached by the tree search (directly or through
`GetLeaf`): gid is that node's gid, lev its level, rank is the rank map
applied at that gid, and `destn` is a non-negative slot index. -/
theorem slot_all_or_nothing :
    ∀ (m : Mesh) (ft : FindFn) (rk : Int → Int) (nmb : Nat) (gids : List Int)
      (nn b : Nat) (e : NbrEntry),
      e ∈ (setNghbrTable m ft rk nmb gids nn).getD b [] →
      e = sentinelEntry ∨ ∃ nt, FoundNode ft (m.lloclist (gids.getD b 0)) nt ∧
        e.gid = nt.gid_ ∧ e.lev = nt.loc_.level ∧ e.rank = rk nt.gid_ ∧ 0 ≤ e.destn := by
  intro m ft rk nmb gids nn b e he
  rcases Nat.lt_or_ge b nmb with hb | hb
  · have hrow : (setNghbrTable m ft rk nmb gids nn).getD b [] =
        rowFor m ft rk (m.lloclist (gids.getD b 0)) nn := by
      simp [setNghbrTable, List.getD, List.getElem?_map, List.getElem?_range, hb]
    rw [hrow] at he
    exact rowFor_mem m ft rk _ nn e he
  · have hnone : (setNghbrTable m ft rk nmb gids nn).getD b [] = [] := by
      have hlen : (setNghbrTable m ft rk nmb gids nn).length = nmb := by
        simp [setNghbrTable]
      simp [List.getD, List.getElem?_eq_none, hlen, hb]
    rw [hnone] at he
    exact absurd he (List.not_mem_nil e)

/-- Witness for C9 at a concrete input: the sentinel entry of block 0's
row in the 1D scenario satisfies the disjunction. -/
theorem slot_all_or_nothing_witness :
    sentinelEntry = sentinelEntry ∨ ∃ nt,
      FoundNode ft1d (mesh1d.lloclist (([0, 1] : List Int).getD 0 0)) nt ∧
      sentinelEntry.gid = nt.gid_ ∧ sentinelEntry.lev = nt.loc_.level ∧
      sentinelEntry.rank = rank8 nt.gid_ ∧ 0 ≤ sentinelEntry.destn :=
  slot_all_or_nothing mesh1d ft1d rank8 2 [0, 1] 2 0 sentinelEntry (by decide)

/-- C2: evaluation at the failing input.  In the 3D scenario the +x2-face
query of block (level 1; 0,0,0) reaches a node that is internal
(`pleaf_` non-null: the true neighbors are finer), whose facing `GetLeaf`
child is the level-2 leaf gid 8 — yet the x2-face branch of
`SetNeighbors`, which unlike the x1-face branch never tests `pleaf_`,
records the internal node itself: the slot-3 entry holds gid 2 and
level 1, not the leaf's gid 8 and level 2. -/
theorem x2face_finer_records_internal_node :
    (ft3 locB 0 1 0).map MBTree.gid_ = some 2 ∧
    (ft3 locB 0 1 0).map (fun t => t.pleaf_.isSome) = some true ∧
    (ft3 locB 0 1 0).map (fun t => (t.GetLeaf 0 0 0).gid_) = some 8 ∧
    (ft3 locB 0 1 0).map (fun t => (t.GetLeaf 0 0 0).loc_.level) = some 2 ∧
    (rowFor mesh3 ft3 rank3 locB 26).getD 3 sentinelEntry = ⟨2, 1, 2, 2⟩ :=
  ⟨rfl, rfl, rfl, rfl, by decide⟩

/-- C8 counterexample: the supplied rank map of the 1D scenario has no
entry for gid 1, a live neighbor of block 0 — yet the resolve pass does
not abort: it completes and publishes the full two-row table, stamping
the missing-entry neighbor with the junk value the unchecked array read
produced. -/
theorem missing_rank_entry_no_abort :
    List.lookup 1 rmap8 = none ∧
    (setNeighborsSt st8 mesh1d ft1d rank8).nnghbr = 2 ∧
    (setNeighborsSt st8 mesh1d ft1d rank8).nghbr =
      [[sentinelEntry, ⟨1, 1, -99, 0⟩], [⟨0, 1, 0, 1⟩, sentinelEntry]] :=
  ⟨rfl, rfl, by decide⟩

/-- C8 amended: `SetNeighbors` performs no rank-map validation and has no
error path at all: for every mesh, tree search and rank map the pass runs
to completion and publishes a table of exactly `nmb` rows of `nnghbr`
slots, reading the rank array unconditionally at each found gid. -/
theorem setNeighbors_always_publishes :
    ∀ (st : MeshBlockSt) (m : Mesh) (ft : FindFn) (rk : Int → Int),
      (setNeighborsSt st m ft rk).nghbr.length = st.nmb
    ∧ (∀ row ∈ (setNeighborsSt st m ft rk).nghbr,
        row.length = (nnghbrOf st.nnghbr m.one_d m.two_d m.three_d).toNat)
    ∧ (setNeighborsSt st m ft rk).nnghbr =
        nnghbrOf st.nnghbr m.one_d m.two_d m.three_d := by
  intro st m ft rk
  refine ⟨by simp [setNeighborsSt, setNghbrTable], ?_, rfl⟩
  intro row hrow
  rcases List.mem_map.mp hrow with ⟨b, _, rfl⟩
  exact rowFor_length m ft rk _ _

/-- Witness for C8's amended statement at the 1D scenario. -/
theorem setNeighbors_always_publishes_witness :
    (setNeighborsSt st8 mesh1d ft1d rank8).nghbr.length = st8.nmb ∧
    ([sentinelEntry, ⟨1, 1, -99, 0⟩] : List NbrEntry).length =
      (nnghbrOf st8.nnghbr mesh1d.one_d mesh1d.two_d mesh1d.three_d).toNat :=
  ⟨(setNeighbors_always_publishes st8 mesh1d ft1d rank8).1,
   (setNeighbors_always_publishes st8 mesh1d ft1d rank8).2.1
     [sentinelEntry, ⟨1, 1, -99, 0⟩] (by decide)⟩
